import Mathlib

/-!
Verification development for the Agent_Dashboard backend's Conversation Sync
Engine (`src/services/elevenlabs.js` and `src/services/syncService.js`).

The JavaScript code is shallowly embedded: JSON values are an inductive type
`Json`, JS truthiness and `||` fallbacks are modelled explicitly, optional
chaining (`a?.b`) is the total lookup `jGet` (returning `Json.null` for both
JS `null` and `undefined`, which this model conflates since the code only
ever distinguishes them through truthiness and `!= null`, which treat them
alike), and plain member access (`a.b`, which throws a TypeError when `a` is
null/undefined) is the fallible lookup `jGetE`.  JS numbers are modelled as
integers plus an explicit NaN marker; fractional values never decide any of
the properties below.  Asynchrony is eliminated: remote calls become explicit
environment functions (the page stream and the per-item detail outcome), and
`new Date().toISOString()` becomes an explicit clock parameter.
-/

namespace AgentDash

/-- JSON-ish runtime values flowing through the sync engine.  `nan` is the
JS NaN number (falsy, distinct from `null`). -/
inductive Json where
  | null : Json
  | nan : Json
  | bool : Bool → Json
  | num : Int → Json
  | str : String → Json
  | arr : List Json → Json
  | obj : List (String × Json) → Json
  deriving Repr

/-- Structural equality on `Json` (used only to state theorems; the JS code
itself never compares whole JSON trees). -/
def Json.beq : Json → Json → Bool
  | .null, .null => true
  | .nan, .nan => true
  | .bool a, .bool b => a = b
  | .num a, .num b => a = b
  | .str a, .str b => a = b
  | .arr a, .arr b => beqList a b
  | .obj a, .obj b => beqFields a b
  | _, _ => false
where
  beqList : List Json → List Json → Bool
    | [], [] => true
    | x :: xs, y :: ys => Json.beq x y && beqList xs ys
    | _, _ => false
  beqFields : List (String × Json) → List (String × Json) → Bool
    | [], [] => true
    | (k, x) :: xs, (l, y) :: ys => k = l && Json.beq x y && beqFields xs ys
    | _, _ => false

instance : BEq Json := ⟨Json.beq⟩

/-- JS truthiness of a value. -/
def jTruthy : Json → Bool
  | .null => false
  | .nan => false
  | .bool b => b
  | .num n => n ≠ 0
  | .str s => s ≠ ""
  | .arr _ => true
  | .obj _ => true

/-- `a || b`: JS logical-or fallback. -/
def jOr (a b : Json) : Json := if jTruthy a then a else b

/-- Null-safe member access, modelling `a?.b` (and plain `a.b` on a value
known to be non-null): objects yield the first binding of the key or
`Json.null` when absent; property access on primitives yields `undefined`,
conflated with `Json.null`. -/
def jGet (j : Json) (k : String) : Json :=
  match j with
  | .obj fs =>
    match fs.find? (fun p => p.1 = k) with
    | some p => p.2
    | none => Json.null
  | _ => Json.null

/-- Plain member access `a.b`, which throws a TypeError when `a` is
null/undefined. -/
def jGetE (j : Json) (k : String) : Except String Json :=
  match j with
  | .null => .error "TypeError: cannot read properties of null"
  | _ => .ok (jGet j k)

/-- `Object.keys(x).length`: key count of an object, index count of an array
or string, `0` for other primitives. -/
def jKeysLen : Json → Nat
  | .obj fs => fs.length
  | .arr xs => xs.length
  | .str s => s.length
  | _ => 0

/-- Truthiness of `x.length` (as in `tr.length ? tr : []`): non-empty arrays
and strings have a truthy `.length`; every other value's `.length` is
`undefined` or `0`, both falsy. -/
def jLenTruthy : Json → Bool
  | .arr xs => !xs.isEmpty
  | .str s => !s.isEmpty
  | _ => false

/-- `Number(x)` coercion as used on the cost fields.  Fractional numeric
strings and multi-element array coercions are outside the model (they map to
NaN here); no property below depends on them. -/
def jNumber : Json → Json
  | .num n => .num n
  | .nan => .nan
  | .bool b => .num (if b then 1 else 0)
  | .null => .num 0
  | .str s =>
    match s.trim.toInt? with
    | some n => .num n
    | none => if s.trim = "" then .num 0 else .nan
  | .arr [] => .num 0
  | .arr _ => .nan
  | .obj _ => .nan

/-- JS `x <= t` for a numeric right-hand side, as in
`startTime <= stopBeforeUnix`: numbers compare directly, booleans coerce to
0/1, integer strings coerce numerically, everything else (NaN, objects,
arrays) compares false.  (The code only reaches this comparison behind a
truthiness guard on `x`.) -/
def jsLeNum (s : Json) (t : Int) : Bool :=
  match s with
  | .num n => n ≤ t
  | .bool b => (if b then (1 : Int) else 0) ≤ t
  | .str str =>
    match str.trim.toInt? with
    | some n => n ≤ t
    | none => false
  | _ => false

/-! ## Paginator: `fetchAllConversations` (src/services/elevenlabs.js) -/

/-- One upstream page, abstracting one `fetchConversationPage` response:
`conversations` is `data.conversations || []`, and `hasNext` is the
truthiness of `data.next_cursor || data.cursor || null`. -/
structure Page where
  conversations : List Json
  hasNext : Bool

/-- `conv.metadata?.start_time_unix_secs || conv.start_time_unix_secs || null`. -/
def convStartTime (conv : Json) : Json :=
  jOr (jGet (jGet conv "metadata") "start_time_unix_secs")
    (jOr (jGet conv "start_time_unix_secs") Json.null)

/-- Truthiness of the checkpoint argument `stopBeforeUnix` (a DB bigint or
null): `some 0` is falsy exactly like the JS number `0`. -/
def stopTruthy : Option Int → Bool
  | none => false
  | some t => t ≠ 0

/-- The numeric value of the checkpoint (only read behind `stopTruthy`). -/
def stopVal : Option Int → Int
  | none => 0
  | some t => t

/-- The early-stop test
`stopBeforeUnix && startTime && startTime <= stopBeforeUnix`. -/
def shouldStop (stop : Option Int) (conv : Json) : Bool :=
  stopTruthy stop && jTruthy (convStartTime conv) &&
    jsLeNum (convStartTime conv) (stopVal stop)

/-- The inner `for (const conv of convs)` loop of `fetchAllConversations`:
returns the pushed items and whether the `stopped` flag was set. -/
def scanPage (stop : Option Int) : List Json → List Json × Bool
  | [] => ([], false)
  | c :: rest =>
    if shouldStop stop c then ([], true)
    else
      let t := scanPage stop rest
      (c :: t.1, t.2)

/-- Result of a whole pagination run.  `pagesCompleted` is the final value of
the JS `page` counter; `fetches` counts `fetchConversationPage` calls (model
bookkeeping for the termination property); `stopped` is the early-stop flag. -/
structure FetchResult where
  conversations : List Json
  pagesCompleted : Nat
  fetches : Nat
  stopped : Bool

/-- The `do { ... } while (cursor && page < maxPages)` loop of
`fetchAllConversations`.  `k` is the JS `page` counter, `acc` the
`allConversations` accumulator, `f` the number of page fetches so far.
`fuel` is a structural-recursion bound maintained at `maxPages - k`; the
`fuel = 0` fallthrough is unreachable from `fetchAllConversations` because
the loop guard `k + 1 < maxPages` forces `fuel ≥ 2` before any recursive
call. -/
def fetchAllGo (pages : Nat → Page) (stop : Option Int) (maxPages : Nat)
    (fuel k : Nat) (acc : List Json) (f : Nat) : FetchResult :=
  let convs := (pages k).conversations
  if convs.isEmpty then
    { conversations := acc, pagesCompleted := k, fetches := f + 1, stopped := false }
  else
    let scanned := scanPage stop convs
    let acc2 := acc ++ scanned.1
    if scanned.2 then
      { conversations := acc2, pagesCompleted := k, fetches := f + 1, stopped := true }
    else if (pages k).hasNext && decide (k + 1 < maxPages) then
      match fuel with
      | 0 =>
        { conversations := acc2, pagesCompleted := k + 1, fetches := f + 1, stopped := false }
      | fuel2 + 1 => fetchAllGo pages stop maxPages fuel2 (k + 1) acc2 (f + 1)
    else
      { conversations := acc2, pagesCompleted := k + 1, fetches := f + 1, stopped := false }

/-- `fetchAllConversations(apiKey, agentId, stopBeforeUnix, maxPages = 20)`,
the pagination driver of src/services/elevenlabs.js.  The upstream is
abstracted as the page stream `pages` (request number ↦ response); the API
key and agent id only select that stream and are dropped. -/
def fetchAllConversations (pages : Nat → Page) (stop : Option Int)
    (maxPages : Nat := 20) : FetchResult :=
  fetchAllGo pages stop maxPages maxPages 0 [] 0

/-! ## User-name extraction: `extractUserName` (src/services/syncService.js)

The greeting regex `/\b(?:hey|hello|hi)\s+([A-Z][a-z]{1,30})\b/i` is modelled
operationally: the engine scans left to right for a start position at a word
boundary, tries the three greeting alternatives case-insensitively (the `i`
flag applies to the whole pattern, including the capture classes), requires
at least one whitespace, then a letter run.  Because `[A-Z][a-z]{1,30}` under
`i` is just 2–31 letters followed by `\b`, the capture succeeds exactly when
the maximal letter run after the whitespace has length 2–31 and is followed
by a non-word character or the end of the string (greedy matching plus the
trailing boundary make shorter backtracked captures impossible: they would
end in front of another letter). -/

/-- `\w` (ASCII word character, as relevant to `\b`). -/
def isWordChar (c : Char) : Bool := c.isAlpha || c.isDigit || c = '_'

/-- `\s` restricted to the ASCII whitespace actually occurring in messages. -/
def isJsSpace (c : Char) : Bool := c = ' ' || c = '\t' || c = '\n' || c = '\r'

/-- Strip a case-insensitive literal (given in lowercase) off the front. -/
def stripCI : List Char → List Char → Option (List Char)
  | [], rest => some rest
  | _ :: _, [] => none
  | p :: ps, c :: rest => if c.toLower = p then stripCI ps rest else none

/-- The trailing `\b` of the capture: end of input or a non-word character. -/
def boundaryAfter : List Char → Bool
  | [] => true
  | a :: _ => !isWordChar a

/-- The capture `([A-Z][a-z]{1,30})\b` under the `i` flag, at the position
after the whitespace: succeeds exactly when the maximal letter run here has
length 2–31 and ends at a word boundary (greedy matching plus the trailing
`\b` rule out every shorter backtracked capture, which would end in front of
another letter). -/
def nameRun (afterWs : List Char) : Option String :=
  if 2 ≤ (afterWs.takeWhile Char.isAlpha).length ∧
      (afterWs.takeWhile Char.isAlpha).length ≤ 31 ∧
      boundaryAfter (afterWs.drop (afterWs.takeWhile Char.isAlpha).length) = true then
    some (String.mk (afterWs.takeWhile Char.isAlpha))
  else none

/-- After the greeting: `\s+([A-Z][a-z]{1,30})\b` — at least one whitespace,
then (greedily) all whitespace, then the capture. -/
def nameTail (cs : List Char) : Option String :=
  match cs with
  | [] => none
  | c :: rest =>
    if isJsSpace c then nameRun (rest.dropWhile isJsSpace)
    else none

/-- Try one greeting alternative at the current position. -/
def tryGreeting (g : String) (cs : List Char) : Option String :=
  match stripCI g.data cs with
  | some rest => nameTail rest
  | none => none

/-- The alternation `(?:hey|hello|hi)` at the current position (no two
alternatives can match the same text, so the order is immaterial). -/
def greetingHere (cs : List Char) : Option String :=
  match tryGreeting "hey" cs with
  | some n => some n
  | none =>
    match tryGreeting "hello" cs with
    | some n => some n
    | none => tryGreeting "hi" cs

/-- The leading `\b`: the pattern starts with a word character, so the
boundary holds exactly when the previous character is absent or non-word. -/
def boundaryOk : Option Char → Bool
  | none => true
  | some p => !isWordChar p

/-- Left-to-right scan for the leftmost match; `prev` is the character before
the current position. -/
def scanChars : Option Char → List Char → Option String
  | _, [] => none
  | prev, c :: rest =>
    match (if boundaryOk prev then greetingHere (c :: rest) else none) with
    | some n => some n
    | none => scanChars (some c) rest

/-- `message.match(/\b(?:hey|hello|hi)\s+([A-Z][a-z]{1,30})\b/i)`, returning
the capture group `m[1]` of the leftmost match. -/
def matchGreeting (s : String) : Option String := scanChars none s.data

/-- Lowercasing, for `k.toLowerCase()`. -/
def lowerStr (s : String) : String := String.mk (s.data.map Char.toLower)

/-- `hay.includes(needle)` on the underlying characters. -/
def listHasSub (needle : List Char) : List Char → Bool
  | [] => needle.isEmpty
  | c :: rest => needle.isPrefixOf (c :: rest) || listHasSub needle rest

/-- `hay.includes(needle)` for strings. -/
def strIncludes (hay needle : String) : Bool := listHasSub needle.data hay.data

/-- The key loop inside `if (dv) { ... }`: the first key whose lowercase form
contains "name" or "user" and whose value is a truthy string shorter than 40
characters yields that value. -/
def dvFieldScan (dv : Json) : List (String × Json) → Option Json
  | [] => none
  | (k, _) :: rest =>
    if strIncludes (lowerStr k) "name" || strIncludes (lowerStr k) "user" then
      match jGet dv k with
      | .str s => if s ≠ "" && s.length < 40 then some (.str s) else dvFieldScan dv rest
      | _ => dvFieldScan dv rest
    else dvFieldScan dv rest

/-- The dynamic-variables branch of `extractUserName`: explicit `user_name`
first (returned raw if truthy), then the name/user key scan; `none` means
fall through to the transcript scan.  `Object.keys` of a primitive is empty,
so a truthy non-object `dv` contributes nothing. -/
def dvScan (dv : Json) : Option Json :=
  if jTruthy dv then
    if jTruthy (jGet dv "user_name") then some (jGet dv "user_name")
    else
      match dv with
      | .obj fs => dvFieldScan dv fs
      | _ => none
  else none

/-- `t.role === 'agent'` (strict equality against a string literal). -/
def roleIsAgent (t : Json) : Bool :=
  match jGet t "role" with
  | .str s => s = "agent"
  | _ => false

/-- Is the value JS null/undefined? -/
def jIsNull : Json → Bool
  | .null => true
  | _ => false

/-- Is the value a string? (`typeof x === 'string'`.) -/
def jIsStr : Json → Bool
  | .str _ => true
  | _ => false

/-- The transcript loop of `extractUserName` over the already-sliced turns:
`t.role` throws on a null turn; a turn with agent role and truthy message has
its message matched (throwing if the message is a truthy non-string); the
first match is returned, otherwise null. -/
def turnsLoopE : List Json → Except String Json
  | [] => .ok Json.null
  | t :: rest =>
    if jIsNull t then .error "TypeError: cannot read properties of null"
    else if roleIsAgent t && jTruthy (jGet t "message") then
      match jGet t "message" with
      | .str s =>
        match matchGreeting s with
        | some name => .ok (.str name)
        | none => turnsLoopE rest
      | _ => .error "TypeError: message.match is not a function"
    else turnsLoopE rest

/-- `for (const t of (transcript || []).slice(0, 20)) { ... }; return null`.
A falsy transcript becomes `[]`; `.slice` on a truthy non-array throws,
except on a string, whose one-character elements have no `role` property and
are all skipped. -/
def greetingLoopE (tr : Json) : Except String Json :=
  if jTruthy tr then
    match tr with
    | .arr xs => turnsLoopE (xs.take 20)
    | .str _ => .ok Json.null
    | _ => .error "TypeError: transcript.slice is not a function"
  else turnsLoopE []

/-- `extractUserName(detail, transcript)` from src/services/syncService.js. -/
def extractUserNameE (detail transcript : Json) : Except String Json :=
  match dvScan (jGet (jGet detail "conversation_initiation_client_data")
      "dynamic_variables") with
  | some v => .ok v
  | none => greetingLoopE transcript

/-! ## Row builder: `buildRow` (src/services/syncService.js) -/

/-- The canonical persisted row shape (columns of `public.conversations`). -/
structure Row where
  conversation_id : Json
  agent_db_id : String
  agent_el_id : Json
  status : Json
  start_time_unix : Json
  duration_secs : Json
  user_name : Json
  transcript : Json
  metadata : Json
  cost : Json
  llm_cost : Json
  llm_price : Json
  transcript_summary : Json
  confidence_score : Json
  knowledge_coverage_score : Json
  primary_question : Json
  question_category : Json
  synced_at : String

/-- `x != null ? Number(x) : null` (loose `!= null` excludes exactly null and
undefined, both `Json.null` here). -/
def numOrNull (x : Json) : Json :=
  match x with
  | .null => Json.null
  | v => jNumber v

/-- The local `meta` of buildRow:
`detail?.metadata || listItem?.metadata || {}`. -/
def metaOf (listItem detail : Json) : Json :=
  jOr (jGet detail "metadata") (jOr (jGet listItem "metadata") (Json.obj []))

/-- The local `tr` of buildRow: `detail?.transcript || []`. -/
def trOf (detail : Json) : Json := jOr (jGet detail "transcript") (Json.arr [])

/-- `buildRow(agentDbId, agentElId, listItem, detail)` from
src/services/syncService.js (the current version, whose cost column reads
`detail.metadata.cost`; the repository also carries an older copy of the file
whose buildRow reads `charging.cost`/`charging.llm_cost` instead).  The clock
is the explicit `now` parameter; the token counts `tokensIn`/`tokensOut` and
the `logger.debug` call are omitted because they only feed logging, not the
returned row.  `listItem.conversation_id` is a plain (throwing) access. -/
def buildRowE (agentDbId agentElId : String) (listItem detail : Json)
    (now : String) : Except String Row := do
  let meta := metaOf listItem detail
  let charging := jOr (jGet meta "charging") (Json.obj [])
  let tr := trOf detail
  let analysis := jOr (jGet detail "analysis") (Json.obj [])
  let evalResults := jOr (jGet analysis "evaluation_criteria_results") (Json.obj [])
  let dataResults := jOr (jGet analysis "data_collection_results") (Json.obj [])
  let cid ← jGetE listItem "conversation_id"
  let userName ← extractUserNameE detail tr
  pure {
    conversation_id := cid
    agent_db_id := agentDbId
    agent_el_id := if agentElId ≠ "" then Json.str agentElId else Json.null
    status := jOr (jGet detail "status") (jOr (jGet listItem "status") Json.null)
    start_time_unix := jOr (jGet meta "start_time_unix_secs")
      (jOr (jGet (jGet listItem "metadata") "start_time_unix_secs") Json.null)
    duration_secs := jOr (jGet meta "call_duration_secs")
      (jOr (jGet (jGet listItem "metadata") "call_duration_secs") Json.null)
    user_name := userName
    transcript := if jLenTruthy tr then tr else Json.arr []
    metadata := if jKeysLen meta ≠ 0 then meta else Json.obj []
    cost := numOrNull (jGet meta "cost")
    llm_cost := numOrNull (jGet charging "llm_charge")
    llm_price := numOrNull (jGet charging "llm_price")
    transcript_summary := jGet analysis "transcript_summary"
    confidence_score := jOr (jGet evalResults "confidence_score") Json.null
    knowledge_coverage_score := jOr (jGet evalResults "knowledge_coverage_score") Json.null
    primary_question := jGet (jGet dataResults "primary_question") "value"
    question_category := jGet (jGet dataResults "question_category") "value"
    synced_at := now }

/-! ## Sync orchestrator: `syncConversations` (src/services/syncService.js) -/

/-- One item's settled detail fetch, as consumed by the batch loop: a
rejected promise (`none`) or a fulfilled falsy value both yield
`detail = null`; a fulfilled truthy payload is kept.  The remote call is
abstracted as the environment function `details` keyed by the list item. -/
def detailOutcome (details : Json → Option Json) (c : Json) : Json :=
  match details c with
  | some v => if jTruthy v then v else Json.null
  | none => Json.null

/-- The Step-3 batch loop: slice off `DETAIL_BATCH_SIZE = 8` items, settle
the batch, push one `(list, detail)` pair per item in order, and continue
with the rest (the inter-batch `sleep` has no observable effect here).
`fuel` is a structural-recursion bound, initialized to the item count, which
suffices because every batch removes at least one item; the exhausted-fuel
case is unreachable and is defined as the same per-item mapping. -/
def fetchDetailsGo (details : Json → Option Json) :
    Nat → List Json → List (Json × Json)
  | _, [] => []
  | 0, l => l.map (fun b => (b, detailOutcome details b))
  | fuel + 1, c :: rest =>
    let l := c :: rest
    (l.take 8).map (fun b => (b, detailOutcome details b)) ++
      fetchDetailsGo details fuel (l.drop 8)

/-- The whole Step-3 loop over all listed items. -/
def fetchDetailsBatched (details : Json → Option Json)
    (convs : List Json) : List (Json × Json) :=
  fetchDetailsGo details convs.length convs

/-- `detailedConvs.map(({list, detail}) => buildRow(...))`, with a thrown
TypeError from any buildRow aborting the whole run. -/
def buildRowsE (agentDbId agentElId now : String) :
    List (Json × Json) → Except String (List Row)
  | [] => .ok []
  | p :: ps =>
    match buildRowE agentDbId agentElId p.1 p.2 now with
    | .error err => .error err
    | .ok r =>
      match buildRowsE agentDbId agentElId now ps with
      | .error err => .error err
      | .ok rs => .ok (r :: rs)

/-- The rows of the `conversations` table belonging to one agent (the
`eq('agent_db_id', agentDbId)` filter; also the `count: 'exact'` query). -/
def agentRows (table : List Row) (a : String) : List Row :=
  table.filter (fun r => r.agent_db_id == a)

/-- The numeric sort key of a stored row's `start_time_unix` bigint column
(`none` for SQL NULL). -/
def startKey (r : Row) : Option Int :=
  match r.start_time_unix with
  | .num n => some n
  | _ => none

/-- Pick the row that sorts first under `ORDER BY start_time_unix DESC`
(Postgres default NULLS FIRST); among equal keys the earlier row is kept
(Postgres leaves ties unspecified; no property below depends on ties). -/
def laterRow (r s : Row) : Row :=
  match startKey r, startKey s with
  | none, _ => r
  | some _, none => s
  | some x, some y => if x ≥ y then r else s

/-- The Step-1 checkpoint query:
`order('start_time_unix', desc).limit(1).maybeSingle()`. -/
def latestQuery (table : List Row) (a : String) : Option Row :=
  match agentRows table a with
  | [] => none
  | r :: rs => some (rs.foldl laterRow r)

/-- `const stopBeforeUnix = latest?.start_time_unix || null`: a missing row
or a falsy stored value (0 or NULL — the column is a bigint, so no other
falsy values occur) leaves the checkpoint absent. -/
def stopBeforeOf (table : List Row) (a : String) : Option Int :=
  match latestQuery table a with
  | none => none
  | some r =>
    match r.start_time_unix with
    | .num n => if n = 0 then none else some n
    | _ => none

/-- `upsert` of one row with `onConflict: 'conversation_id'`: replace the
rows sharing the key, else append. -/
def upsertOne (table : List Row) (r : Row) : List Row :=
  if table.any (fun t => t.conversation_id == r.conversation_id) then
    table.map (fun t => if t.conversation_id == r.conversation_id then r else t)
  else table ++ [r]

/-- The Step-4 bulk upsert of all built rows. -/
def upsertRows (table : List Row) (rows : List Row) : List Row :=
  rows.foldl upsertOne table

/-- The world a sync run interacts with: the upstream page stream, the
per-item detail fetch outcome, and the current time. -/
structure SyncEnv where
  pages : Nat → Page
  details : Json → Option Json
  now : String

/-- Observable outcome of a run: the returned summary
`{newCount, totalCount, lastSyncedAt}` plus the two store side effects —
the `conversations` table after the run and whether `agents.last_synced_at`
was written (Step 5). -/
structure SyncOutcome where
  newCount : Nat
  totalCount : Nat
  lastSyncedAt : String
  table : List Row
  markerUpdated : Bool

/-- `syncConversations(agentDbId, agentElId, apiKey)` from
src/services/syncService.js, with the remote API and clock supplied by
`env` and the `conversations` table passed (and returned) explicitly.  The
error case models a thrown TypeError from `buildRow`; the storage-error and
remote-error aborts are outside the claims and not given distinct codes. -/
def syncConversations (agentDbId agentElId : String) (env : SyncEnv)
    (table : List Row) : Except String SyncOutcome :=
  let stopBeforeUnix := stopBeforeOf table agentDbId
  let newConvs := (fetchAllConversations env.pages stopBeforeUnix 20).conversations
  if newConvs.isEmpty then
    .ok { newCount := 0
          totalCount := (agentRows table agentDbId).length
          lastSyncedAt := env.now
          table := table
          markerUpdated := false }
  else
    match buildRowsE agentDbId agentElId env.now
        (fetchDetailsBatched env.details newConvs) with
    | .error e => .error e
    | .ok rows =>
      let table2 := upsertRows table rows
      .ok { newCount := rows.length
            totalCount := (agentRows table2 agentDbId).length
            lastSyncedAt := env.now
            table := table2
            markerUpdated := true }

/-! ## Safety predicates and reference formulations used by the theorems -/

/-- A transcript turn that the scanning loop can process without throwing:
not null, and if it is an agent turn with a truthy message, the message is a
string. -/
def turnSafe (t : Json) : Bool :=
  !jIsNull t &&
    (!(roleIsAgent t && jTruthy (jGet t "message")) || jIsStr (jGet t "message"))

/-- A `tr` value (`detail?.transcript || []`) that `extractUserName` can
process without throwing; only the first 20 turns are ever touched. -/
def transcriptSafe (tr : Json) : Bool :=
  if jTruthy tr then
    match tr with
    | .arr xs => (xs.take 20).all turnSafe
    | .str _ => true
    | .null => false
    | .nan => false
    | .bool _ => false
    | .num _ => false
    | .obj _ => false
  else true

/-- Reference formulation of one turn's contribution to the greeting scan:
an agent-role turn with a truthy string message contributes its greeting
match, every other turn contributes nothing. -/
def turnGreetingName (t : Json) : Option String :=
  if roleIsAgent t && jTruthy (jGet t "message") then
    match jGet t "message" with
    | .str s => matchGreeting s
    | _ => none
  else none

/-- Reference formulation of the transcript scan: the first greeting match
among the first 20 turns. -/
def greetingNameSpec (ts : List Json) : Option String :=
  (ts.take 20).findSome? turnGreetingName

/-- The JSON value `extractUserName` returns for a scan result. -/
def jsonOfName : Option String → Json
  | some n => .str n
  | none => .null

/-! ## Basic lemmas about the JS-value helpers -/

theorem jOr_of_truthy {a : Json} (b : Json) (h : jTruthy a = true) : jOr a b = a := by
  simp [jOr, h]

theorem jOr_of_falsy {a : Json} (b : Json) (h : jTruthy a = false) : jOr a b = b := by
  simp [jOr, h]

theorem jOr_zero (b : Json) : jOr (Json.num 0) b = b := rfl

theorem jGet_of_falsy {j : Json} (k : String) (h : jTruthy j = false) :
    jGet j k = Json.null := by
  cases j <;> simp_all [jTruthy, jGet]

theorem shouldStop_none (c : Json) : shouldStop none c = false := by
  simp [shouldStop, stopTruthy]

theorem scanPage_none (l : List Json) : scanPage none l = (l, false) := by
  induction l with
  | nil => rfl
  | cons c rest ih => simp [scanPage, shouldStop_none, ih]

theorem scanPage_mem {stop : Option Int} :
    ∀ {l : List Json} {c : Json}, c ∈ (scanPage stop l).1 →
      c ∈ l ∧ shouldStop stop c = false := by
  intro l
  induction l with
  | nil => intro c hc; simp [scanPage] at hc
  | cons a rest ih =>
    intro c hc
    cases hs : shouldStop stop a with
    | true => simp [scanPage, hs] at hc
    | false =>
      simp only [scanPage, hs, Bool.false_eq_true, if_false, List.mem_cons] at hc
      rcases hc with rfl | hc
      · exact ⟨List.mem_cons_self _ _, hs⟩
      · rcases ih hc with ⟨h1, h2⟩
        exact ⟨List.mem_cons_of_mem _ h1, h2⟩

theorem scanPage_reaches {stop : Option Int} :
    ∀ (pre : List Json) (c : Json) (post : List Json),
      (∀ u ∈ pre, shouldStop stop u = false) → shouldStop stop c = false →
      c ∈ (scanPage stop (pre ++ c :: post)).1 := by
  intro pre
  induction pre with
  | nil =>
    intro c post _ hc
    simp [scanPage, hc]
  | cons a rest ih =>
    intro c post hpre hc
    have ha := hpre a (List.mem_cons_self _ _)
    simp only [List.cons_append, scanPage, ha, Bool.false_eq_true, if_false, List.mem_cons]
    exact Or.inr (ih c post (fun u hu => hpre u (List.mem_cons_of_mem _ hu)) hc)

/-! ## Lemmas about the pagination loop -/

theorem fetchAllGo_fetches_le (pages : Nat → Page) (stop : Option Int) (maxPages : Nat) :
    ∀ (fuel k : Nat) (acc : List Json) (f : Nat), 1 ≤ fuel → k + fuel = maxPages →
      (fetchAllGo pages stop maxPages fuel k acc f).fetches ≤ f + fuel := by
  intro fuel
  induction fuel with
  | zero => intro k acc f h; omega
  | succ n ih =>
    intro k acc f _ hk
    rw [fetchAllGo]
    dsimp only
    split
    · dsimp only; omega
    · split
      · dsimp only; omega
      · split
        · next hguard =>
          have hlt : k + 1 < maxPages := by
            have := (Bool.and_eq_true _ _).mp hguard
            simpa using this.2
          have hn : 1 ≤ n := by omega
          exact le_trans (ih (k + 1) _ (f + 1) hn (by omega)) (by omega)
        · dsimp only; omega

theorem fetchAllGo_fetches_exact (pages : Nat → Page) (maxPages : Nat)
    (hpg : ∀ k, (pages k).conversations ≠ [] ∧ (pages k).hasNext = true) :
    ∀ (fuel k : Nat) (acc : List Json) (f : Nat), 1 ≤ fuel → k + fuel = maxPages →
      (fetchAllGo pages none maxPages fuel k acc f).fetches = f + fuel ∧
        (fetchAllGo pages none maxPages fuel k acc f).pagesCompleted = maxPages := by
  intro fuel
  induction fuel with
  | zero => intro k acc f h; omega
  | succ n ih =>
    intro k acc f _ hk
    rw [fetchAllGo]
    have hne : ((pages k).conversations.isEmpty) = false := by
      rcases hpg k with ⟨h1, _⟩
      simpa [List.isEmpty_iff] using h1
    have hscan := scanPage_none (pages k).conversations
    dsimp only
    rw [hne, hscan]
    dsimp only
    simp only [Bool.false_eq_true, if_false]
    rw [(hpg k).2]
    by_cases hlt : k + 1 < maxPages
    · have hn : 1 ≤ n := by omega
      rw [decide_eq_true hlt]
      simp only [Bool.and_self, if_pos]
      have := ih (k + 1) (acc ++ (pages k).conversations) (f + 1) hn (by omega)
      exact ⟨by rw [this.1]; omega, this.2⟩
    · rw [decide_eq_false hlt]
      simp only [Bool.and_false, Bool.false_eq_true, if_false]
      refine ⟨?_, ?_⟩ <;> · dsimp only; omega

theorem fetchAllGo_not_stopped (pages : Nat → Page) (maxPages : Nat) :
    ∀ (fuel k : Nat) (acc : List Json) (f : Nat),
      (fetchAllGo pages none maxPages fuel k acc f).stopped = false := by
  intro fuel
  induction fuel with
  | zero =>
    intro k acc f
    rw [fetchAllGo]
    dsimp only
    split
    · rfl
    · rw [scanPage_none]
      simp only [Bool.false_eq_true, if_false]
      split <;> rfl
  | succ n ih =>
    intro k acc f
    rw [fetchAllGo]
    dsimp only
    split
    · rfl
    · rw [scanPage_none]
      simp only [Bool.false_eq_true, if_false]
      split
      · exact ih (k + 1) _ (f + 1)
      · rfl

theorem fetchAllGo_mem (pages : Nat → Page) (stop : Option Int) (maxPages : Nat) :
    ∀ (fuel k : Nat) (acc : List Json) (f : Nat) (c : Json),
      c ∈ (fetchAllGo pages stop maxPages fuel k acc f).conversations →
      c ∈ acc ∨ ∃ j, c ∈ (scanPage stop (pages j).conversations).1 := by
  intro fuel
  induction fuel with
  | zero =>
    intro k acc f c hc
    rw [fetchAllGo] at hc
    dsimp only at hc
    split at hc
    · exact Or.inl hc
    · split at hc
      · rcases List.mem_append.mp hc with h | h
        · exact Or.inl h
        · exact Or.inr ⟨k, h⟩
      · split at hc <;>
        · rcases List.mem_append.mp hc with h | h
          · exact Or.inl h
          · exact Or.inr ⟨k, h⟩
  | succ n ih =>
    intro k acc f c hc
    rw [fetchAllGo] at hc
    dsimp only at hc
    split at hc
    · exact Or.inl hc
    · split at hc
      · rcases List.mem_append.mp hc with h | h
        · exact Or.inl h
        · exact Or.inr ⟨k, h⟩
      · split at hc
        · rcases ih (k + 1) _ (f + 1) c hc with h | h
          · rcases List.mem_append.mp h with h2 | h2
            · exact Or.inl h2
            · exact Or.inr ⟨k, h2⟩
          · exact Or.inr h
        · rcases List.mem_append.mp hc with h | h
          · exact Or.inl h
          · exact Or.inr ⟨k, h⟩

/-! ## Fixtures for witnesses and counterexamples -/

/-- Fixture: a list item whose start time is 3. -/
def convA : Json := Json.obj [("conversation_id", Json.str "convA"),
  ("metadata", Json.obj [("start_time_unix_secs", Json.num 3)])]

/-- Fixture: a list item whose start time is the JS number 0 (falsy). -/
def convZero : Json := Json.obj [("conversation_id", Json.str "convZero"),
  ("metadata", Json.obj [("start_time_unix_secs", Json.num 0)])]

/-- Fixture: a list item whose start time is 10. -/
def convB : Json := Json.obj [("conversation_id", Json.str "convB"),
  ("metadata", Json.obj [("start_time_unix_secs", Json.num 10)])]

/-- Fixture: an upstream with no conversations at all. -/
def emptyEnv : SyncEnv := ⟨fun _ => ⟨[], false⟩, fun _ => none, "NOW"⟩

/-- Fixture: an upstream with one page `[convB, convA]`; detail fetches
succeed for convB and fail for convA. -/
def twoItemEnv : SyncEnv :=
  ⟨fun _ => ⟨[convB, convA], false⟩,
   fun c => if c == convB then some (Json.obj [("status", Json.str "done")]) else none,
   "NOW"⟩

/-- Fixture: a synthetic upstream returning a non-empty page and a cursor on
every request. -/
def foreverPages : Nat → Page := fun k =>
  ⟨[Json.obj [("conversation_id", Json.num (Int.ofNat k))]], true⟩

/-- Fixture: one page holding a single item with start time 0. -/
def zeroOnlyPages : Nat → Page := fun _ => ⟨[convZero], false⟩

/-- Fixture: one page holding a single item with start time 10. -/
def tenOnlyPages : Nat → Page := fun _ => ⟨[convB], false⟩

/-- Fixture: one page where an item older than the checkpoint precedes an
item with start time 0. -/
def stopThenZeroPages : Nat → Page := fun _ => ⟨[convA, convZero], false⟩

/-! ## C2: idempotence of a zero-item sync -/

/-- C2: when the paginator returns zero items, `syncConversations` returns
`newCount = 0` together with the store's existing total for the agent, and
performs no upsert — the whole outcome, including the conversations table,
is the untouched input table (the run returns at Step 2, before any write). -/
theorem sync_zero_items_no_write (agentDbId agentElId : String) (env : SyncEnv)
    (table : List Row)
    (h : (fetchAllConversations env.pages (stopBeforeOf table agentDbId) 20).conversations = []) :
    syncConversations agentDbId agentElId env table =
      .ok { newCount := 0
            totalCount := (agentRows table agentDbId).length
            lastSyncedAt := env.now
            table := table
            markerUpdated := false } := by
  simp only [syncConversations]
  rw [h]
  rfl

/-- Witness for C2 at a concrete empty upstream. -/
theorem sync_zero_items_no_write_witness :
    (fetchAllConversations emptyEnv.pages (stopBeforeOf [] "agent1") 20).conversations = [] ∧
    syncConversations "agent1" "el1" emptyEnv [] =
      .ok { newCount := 0, totalCount := 0, lastSyncedAt := "NOW",
            table := [], markerUpdated := false } :=
  ⟨rfl, sync_zero_items_no_write "agent1" "el1" emptyEnv [] rfl⟩

/-! ## C5: the last-synced marker -/

/-- C5 counterexample: a successful run that finds zero new items returns
`newCount = 0` but does not write `agents.last_synced_at` — the early return
at Step 2 skips Step 5, contradicting "every successful run updates the
agent's last_synced_at marker ... including runs that find zero new items". -/
theorem sync_zero_run_skips_marker :
    (syncConversations "agent1" "el1" emptyEnv []).map
      (fun o => (o.newCount, o.markerUpdated)) = .ok (0, false) := rfl

/-- C5 (amended): a successful run updates the agent's last_synced_at marker
exactly when the paginator listed at least one new item; a zero-item run
still returns a freshly computed lastSyncedAt value in its summary, but skips
the marker write. -/
theorem sync_marker_iff_new_items (agentDbId agentElId : String) (env : SyncEnv)
    (table : List Row) (out : SyncOutcome)
    (h : syncConversations agentDbId agentElId env table = .ok out) :
    (out.markerUpdated = true ↔
      (fetchAllConversations env.pages (stopBeforeOf table agentDbId) 20).conversations ≠ []) ∧
    out.lastSyncedAt = env.now := by
  simp only [syncConversations] at h
  by_cases he : (fetchAllConversations env.pages (stopBeforeOf table agentDbId) 20).conversations = []
  · rw [he] at h
    simp only [List.isEmpty_nil, if_true, Except.ok.injEq] at h
    subst h
    simp [he]
  · have hne : ((fetchAllConversations env.pages (stopBeforeOf table agentDbId) 20).conversations).isEmpty = false := by
      simpa [List.isEmpty_iff] using he
    rw [hne] at h
    simp only [Bool.false_eq_true, if_false] at h
    rcases hb : buildRowsE agentDbId agentElId env.now
        (fetchDetailsBatched env.details
          (fetchAllConversations env.pages (stopBeforeOf table agentDbId) 20).conversations) with e | rows
    · rw [hb] at h
      exact absurd h (by simp)
    · rw [hb] at h
      simp only [Except.ok.injEq] at h
      subst h
      simp [he]

/-- The outcome of the two-item fixture run (the run succeeds, so this is the
payload of its `.ok`). -/
def twoItemOutcome : SyncOutcome :=
  (syncConversations "agent1" "el1" twoItemEnv []).toOption.getD
    ⟨0, 0, "", [], false⟩

/-- Witness for the amended C5 at a run that lists two items. -/
theorem sync_marker_iff_new_items_witness :
    syncConversations "agent1" "el1" twoItemEnv [] = .ok twoItemOutcome ∧
    twoItemOutcome.markerUpdated = true ∧ twoItemOutcome.newCount = 2 :=
  ⟨rfl,
   ((sync_marker_iff_new_items "agent1" "el1" twoItemEnv [] twoItemOutcome rfl).1).mpr
     (fun hx => List.noConfusion hx),
   rfl⟩

/-! ## C6: the page-count ceiling -/

/-- C6: page fetches never exceed the `maxPages = 20` ceiling for any
checkpoint state, and against an upstream that returns a non-empty page with
a next cursor on every request (with no checkpoint to stop early on), the
loop halts after exactly 20 page fetches with the page counter at 20. -/
theorem fetchAll_page_ceiling (pages : Nat → Page) :
    (∀ stop : Option Int, (fetchAllConversations pages stop 20).fetches ≤ 20) ∧
    ((∀ k, (pages k).conversations ≠ [] ∧ (pages k).hasNext = true) →
      (fetchAllConversations pages none 20).fetches = 20 ∧
        (fetchAllConversations pages none 20).pagesCompleted = 20) := by
  constructor
  · intro stop
    have := fetchAllGo_fetches_le pages stop 20 20 0 [] 0 (by omega) (by omega)
    simpa [fetchAllConversations] using this
  · intro hpg
    have := fetchAllGo_fetches_exact pages 20 hpg 20 0 [] 0 (by omega) (by omega)
    exact ⟨by simpa [fetchAllConversations] using this.1,
           by simpa [fetchAllConversations] using this.2⟩

/-- Witness for C6 at the cursors-forever fixture. -/
theorem fetchAll_page_ceiling_witness :
    (∀ k, (foreverPages k).conversations ≠ [] ∧ (foreverPages k).hasNext = true) ∧
    (fetchAllConversations foreverPages none 20).fetches = 20 ∧
    (fetchAllConversations foreverPages none 20).pagesCompleted = 20 ∧
    (fetchAllConversations foreverPages (some 1000) 20).fetches ≤ 20 :=
  ⟨fun _ => ⟨fun hx => List.noConfusion hx, rfl⟩,
   ((fetchAll_page_ceiling foreverPages).2 (fun _ => ⟨fun hx => List.noConfusion hx, rfl⟩)).1,
   ((fetchAll_page_ceiling foreverPages).2 (fun _ => ⟨fun hx => List.noConfusion hx, rfl⟩)).2,
   (fetchAll_page_ceiling foreverPages).1 (some 1000)⟩

/-! ## C1: early-stop correctness -/

/-- C1 counterexample: with checkpoint T = 5, the pagination returns an item
whose `metadata.start_time_unix_secs` is the number 0 — an item with
`start_time_unix <= T` — because 0 is falsy, so the extracted start time
collapses to null and the truthiness guard skips the early-stop comparison. -/
theorem fetchAll_returns_item_below_checkpoint :
    (fetchAllConversations zeroOnlyPages (some 5) 20).conversations = [convZero] ∧
    jGet (jGet convZero "metadata") "start_time_unix_secs" = Json.num 0 ∧ (0 : Int) ≤ 5 :=
  ⟨rfl, rfl, by omega⟩

/-- C1 (amended): for a checkpoint T that is truthy (T ≠ 0; the orchestrator
only ever passes truthy or null checkpoints) and any upstream whose items
carry numeric-or-missing start times, every item returned by
fetchAllConversations has a start time that is missing, the falsy number 0,
or strictly greater than T; no item with a truthy numeric start time ≤ T is
ever returned.  (As originally stated the claim fails: items whose start time
is absent or 0 are returned even though 0 ≤ T.) -/
theorem fetchAll_early_stop_sound (pages : Nat → Page) (T : Int) (hT : T ≠ 0)
    (hshape : ∀ k, ∀ c ∈ (pages k).conversations,
      convStartTime c = Json.null ∨ ∃ v : Int, convStartTime c = Json.num v) :
    ∀ c ∈ (fetchAllConversations pages (some T) 20).conversations,
      convStartTime c = Json.null ∨ convStartTime c = Json.num 0 ∨
        ∃ v : Int, convStartTime c = Json.num v ∧ T < v := by
  intro c hc
  rcases fetchAllGo_mem pages (some T) 20 20 0 [] 0 c hc with h | ⟨j, hj⟩
  · exact absurd h (List.not_mem_nil c)
  · rcases scanPage_mem hj with ⟨hmem, hstop⟩
    rcases hshape j c hmem with hnull | ⟨v, hv⟩
    · exact Or.inl hnull
    · by_cases hv0 : v = 0
      · exact Or.inr (Or.inl (hv0 ▸ hv))
      · refine Or.inr (Or.inr ⟨v, hv, ?_⟩)
        simp only [shouldStop, stopTruthy, stopVal, hv, jTruthy, jsLeNum,
          Bool.and_eq_false_iff, decide_eq_false_iff_not] at hstop
        rcases hstop with h | h
        · rcases h with h | h
          · exact absurd hT (by simpa using h)
          · exact absurd hv0 (by simpa using h)
        · omega

/-- Witness for the amended C1: a single page of one item with start 10
against checkpoint 5 satisfies the conclusion at that item. -/
theorem fetchAll_early_stop_sound_witness :
    (5 : Int) ≠ 0 ∧
    (convStartTime convB = Json.null ∨ convStartTime convB = Json.num 0 ∨
      ∃ v : Int, convStartTime convB = Json.num v ∧ (5 : Int) < v) :=
  ⟨by omega,
   fetchAll_early_stop_sound tenOnlyPages 5 (by omega)
     (fun _ c hc => by
       rcases List.mem_singleton.mp hc with rfl
       exact Or.inr ⟨10, rfl⟩)
     convB
     (by show convB ∈ [convB]; exact List.mem_singleton.mpr rfl)⟩

/-! ## C9: falsy checkpoints and falsy start times -/

/-- C9 counterexample: with checkpoint 5, the zero-start item convZero sits
in the fetched page but is NOT included in the results, because the item
before it (start 3 ≤ 5) triggers the early stop first — so a falsy-start
item is not "always included in the results even when a checkpoint exists". -/
theorem falsy_start_item_dropped_after_stop :
    jTruthy (convStartTime convZero) = false ∧
    convZero ∈ (stopThenZeroPages 0).conversations ∧
    (fetchAllConversations stopThenZeroPages (some 5) 20).conversations = [] :=
  ⟨rfl,
   by show convZero ∈ [convA, convZero]
      exact List.mem_cons_of_mem _ (List.mem_singleton.mpr rfl),
   rfl⟩

/-- C9 (amended): (a) a falsy stored maximum start time (0 or NULL) makes
the checkpoint absent; (b) with an absent checkpoint the paginator never
sets the early-stop flag and every page is scanned whole; (c) an item with a
falsy (missing or 0) start time never triggers the early stop, and (d) such
an item is included whenever the scan reaches it, i.e. when no earlier item
of its page triggered the stop.  (As originally stated, the "always
included" part fails when an earlier item of the same page stops the scan
first.) -/
theorem falsy_checkpoint_behaviour :
    (∀ (table : List Row) (a : String) (r : Row), latestQuery table a = some r →
      jTruthy r.start_time_unix = false → stopBeforeOf table a = none) ∧
    (∀ (pages : Nat → Page) (m : Nat),
      (fetchAllConversations pages none m).stopped = false ∧
      ∀ l : List Json, scanPage none l = (l, false)) ∧
    (∀ (stop : Option Int) (c : Json), jTruthy (convStartTime c) = false →
      shouldStop stop c = false) ∧
    (∀ (stop : Option Int) (pre : List Json) (c : Json) (post : List Json),
      (∀ u ∈ pre, shouldStop stop u = false) → jTruthy (convStartTime c) = false →
      c ∈ (scanPage stop (pre ++ c :: post)).1) := by
  refine ⟨?_, ?_, ?_, ?_⟩
  · intro table a r hq ht
    simp only [stopBeforeOf, hq]
    cases hs : r.start_time_unix <;> simp_all [jTruthy]
  · intro pages m
    exact ⟨fetchAllGo_not_stopped pages m m 0 [] 0, scanPage_none⟩
  · intro stop c hc
    simp [shouldStop, hc]
  · intro stop pre c post hpre hc
    exact scanPage_reaches pre c post hpre (by simp [shouldStop, hc])

/-- Fixture: a stored row whose start_time_unix is the falsy number 0. -/
def rowZero : Row :=
  { conversation_id := Json.str "r0", agent_db_id := "agent1",
    agent_el_id := Json.null, status := Json.null,
    start_time_unix := Json.num 0, duration_secs := Json.null,
    user_name := Json.null, transcript := Json.arr [], metadata := Json.obj [],
    cost := Json.null, llm_cost := Json.null, llm_price := Json.null,
    transcript_summary := Json.null, confidence_score := Json.null,
    knowledge_coverage_score := Json.null, primary_question := Json.null,
    question_category := Json.null, synced_at := "T0" }

/-- Witness for the amended C9 at concrete inputs. -/
theorem falsy_checkpoint_behaviour_witness :
    stopBeforeOf [rowZero] "agent1" = none ∧
    (fetchAllConversations zeroOnlyPages none 20).stopped = false ∧
    convZero ∈ (scanPage (some 5) ([convB] ++ convZero :: [])).1 :=
  ⟨falsy_checkpoint_behaviour.1 [rowZero] "agent1" rowZero rfl rfl,
   (falsy_checkpoint_behaviour.2.1 zeroOnlyPages 20).1,
   falsy_checkpoint_behaviour.2.2.2 (some 5) [convB] convZero []
     (fun u hu => by rcases List.mem_singleton.mp hu with rfl; rfl) rfl⟩

/-! ## Lemmas about the row builder and the name extraction -/

theorem jGetE_ok {l : Json} (k : String) (hl : l ≠ Json.null) :
    jGetE l k = .ok (jGet l k) := by
  cases l <;> first | exact absurd rfl hl | rfl

theorem buildRowE_null_listItem (a e : String) (d : Json) (now : String) :
    buildRowE a e Json.null d now =
      .error "TypeError: cannot read properties of null" := rfl

theorem turnsLoopE_spec : ∀ (ts : List Json), (∀ t ∈ ts, turnSafe t = true) →
    turnsLoopE ts = .ok (jsonOfName (ts.findSome? turnGreetingName)) := by
  intro ts
  induction ts with
  | nil => intro _; rfl
  | cons t rest ih =>
    intro h
    have ht := h t (List.mem_cons_self _ _)
    have hrest := ih (fun u hu => h u (List.mem_cons_of_mem _ hu))
    simp only [turnSafe, Bool.and_eq_true, Bool.not_eq_true'] at ht
    obtain ⟨htn, hts⟩ := ht
    rw [turnsLoopE, List.findSome?_cons]
    simp only [htn, Bool.false_eq_true, if_false]
    by_cases hcond : (roleIsAgent t && jTruthy (jGet t "message")) = true
    · rw [hcond] at hts
      simp only [Bool.not_true, Bool.false_or] at hts
      simp only [hcond, if_true]
      rw [turnGreetingName]
      simp only [hcond, if_true]
      cases hmsg : jGet t "message" with
      | str s =>
        cases hmatch : matchGreeting s
        · simpa [hmatch] using hrest
        · simp [hmatch, jsonOfName]
      | null => rw [hmsg] at hts; simp [jIsStr] at hts
      | nan => rw [hmsg] at hts; simp [jIsStr] at hts
      | bool b => rw [hmsg] at hts; simp [jIsStr] at hts
      | num n => rw [hmsg] at hts; simp [jIsStr] at hts
      | arr xs => rw [hmsg] at hts; simp [jIsStr] at hts
      | obj fs => rw [hmsg] at hts; simp [jIsStr] at hts
    · have hcf : (roleIsAgent t && jTruthy (jGet t "message")) = false := by
        simpa using hcond
      rw [turnGreetingName]
      simp only [hcf, Bool.false_eq_true, if_false]
      exact hrest

theorem greetingLoopE_ok {tr : Json} (h : transcriptSafe tr = true) :
    ∃ u, greetingLoopE tr = .ok u := by
  cases tr with
  | arr xs =>
    refine ⟨jsonOfName ((xs.take 20).findSome? turnGreetingName), ?_⟩
    have hall : ((xs.take 20).all turnSafe) = true := by
      simpa [transcriptSafe, jTruthy] using h
    show turnsLoopE (xs.take 20) = _
    exact turnsLoopE_spec _ (List.all_eq_true.mp hall)
  | str s =>
    refine ⟨Json.null, ?_⟩
    by_cases hs : s = ""
    · subst hs; rfl
    · simp [greetingLoopE, jTruthy, hs]
  | null => exact ⟨Json.null, rfl⟩
  | nan => exact ⟨Json.null, rfl⟩
  | bool b =>
    cases b
    · exact ⟨Json.null, rfl⟩
    · exact absurd h (by simp [transcriptSafe, jTruthy])
  | num n =>
    by_cases hn : n = 0
    · subst hn; exact ⟨Json.null, rfl⟩
    · exact absurd h (by simp [transcriptSafe, jTruthy, hn])
  | obj fs => exact absurd h (by simp [transcriptSafe, jTruthy])

theorem extractUserNameE_ok {d tr : Json} (h : transcriptSafe tr = true) :
    ∃ u, extractUserNameE d tr = .ok u := by
  cases hdv : dvScan (jGet (jGet d "conversation_initiation_client_data")
      "dynamic_variables") with
  | some v => exact ⟨v, by rw [extractUserNameE, hdv]⟩
  | none =>
    obtain ⟨u, hu⟩ := greetingLoopE_ok h
    exact ⟨u, by rw [extractUserNameE, hdv]; exact hu⟩

/-- Inlining lemma: with a non-null list item, buildRow is the name
extraction followed by the pure record construction. -/
theorem buildRowE_eq (a e : String) (l d : Json) (now : String)
    (hl : l ≠ Json.null) :
    buildRowE a e l d now = (extractUserNameE d (trOf d)).map (fun u =>
      ({ conversation_id := jGet l "conversation_id"
         agent_db_id := a
         agent_el_id := if e ≠ "" then Json.str e else Json.null
         status := jOr (jGet d "status") (jOr (jGet l "status") Json.null)
         start_time_unix := jOr (jGet (metaOf l d) "start_time_unix_secs")
           (jOr (jGet (jGet l "metadata") "start_time_unix_secs") Json.null)
         duration_secs := jOr (jGet (metaOf l d) "call_duration_secs")
           (jOr (jGet (jGet l "metadata") "call_duration_secs") Json.null)
         user_name := u
         transcript := if jLenTruthy (trOf d) then trOf d else Json.arr []
         metadata := if jKeysLen (metaOf l d) ≠ 0 then metaOf l d else Json.obj []
         cost := numOrNull (jGet (metaOf l d) "cost")
         llm_cost := numOrNull
           (jGet (jOr (jGet (metaOf l d) "charging") (Json.obj [])) "llm_charge")
         llm_price := numOrNull
           (jGet (jOr (jGet (metaOf l d) "charging") (Json.obj [])) "llm_price")
         transcript_summary :=
           jGet (jOr (jGet d "analysis") (Json.obj [])) "transcript_summary"
         confidence_score := jOr
           (jGet (jOr (jGet (jOr (jGet d "analysis") (Json.obj []))
             "evaluation_criteria_results") (Json.obj [])) "confidence_score")
           Json.null
         knowledge_coverage_score := jOr
           (jGet (jOr (jGet (jOr (jGet d "analysis") (Json.obj []))
             "evaluation_criteria_results") (Json.obj []))
             "knowledge_coverage_score") Json.null
         primary_question :=
           jGet (jGet (jOr (jGet (jOr (jGet d "analysis") (Json.obj []))
             "data_collection_results") (Json.obj [])) "primary_question") "value"
         question_category :=
           jGet (jGet (jOr (jGet (jOr (jGet d "analysis") (Json.obj []))
             "data_collection_results") (Json.obj [])) "question_category") "value"
         synced_at := now } : Row)) := by
  rw [buildRowE]
  rw [jGetE_ok "conversation_id" hl]
  cases hu : extractUserNameE d (trOf d) with
  | error err => rfl
  | ok u => rfl

/-! ## C7: row-builder totality and extraction priority -/

/-- Fixture: a minimal list item with only a conversation_id. -/
def listIdOnly : Json := Json.obj [("conversation_id", Json.str "conv1")]

/-- C7: for every list item that has a conversation_id and every detail in
the claim's class — null, or a payload with arbitrarily absent nested keys
(no metadata, no charging, no analysis, no transcript, no dynamic_variables;
`transcriptSafe` holds for all of these, in particular for null and for any
payload without a transcript) — buildRow returns a row without throwing,
following the priority order detail-level value, then list-level value, then
typed default (empty array/object, null for scalars). -/
theorem buildRow_total_priority (a e now : String) (l d : Json)
    (hl : jGet l "conversation_id" ≠ Json.null)
    (hd : transcriptSafe (trOf d) = true) :
    ∃ r, buildRowE a e l d now = .ok r ∧
      r.conversation_id = jGet l "conversation_id" ∧
      r.status = jOr (jGet d "status") (jOr (jGet l "status") Json.null) ∧
      r.start_time_unix = jOr (jGet (metaOf l d) "start_time_unix_secs")
        (jOr (jGet (jGet l "metadata") "start_time_unix_secs") Json.null) ∧
      r.duration_secs = jOr (jGet (metaOf l d) "call_duration_secs")
        (jOr (jGet (jGet l "metadata") "call_duration_secs") Json.null) ∧
      (jGet d "transcript" = Json.null → r.transcript = Json.arr []) ∧
      (jGet d "metadata" = Json.null → jGet l "metadata" = Json.null →
        r.metadata = Json.obj []) ∧
      (jGet d "analysis" = Json.null →
        r.transcript_summary = Json.null ∧ r.confidence_score = Json.null ∧
        r.knowledge_coverage_score = Json.null ∧ r.primary_question = Json.null ∧
        r.question_category = Json.null) := by
  have hln : l ≠ Json.null := by
    intro hcontra
    rw [hcontra] at hl
    exact hl rfl
  obtain ⟨u, hu⟩ := extractUserNameE_ok (d := d) hd
  rw [buildRowE_eq a e l d now hln, hu]
  simp only [Except.map]
  refine ⟨_, rfl, rfl, rfl, rfl, rfl, ?_, ?_, ?_⟩
  · intro ht
    have htr : trOf d = Json.arr [] := by rw [trOf, ht]; rfl
    rw [htr]; rfl
  · intro h1 h2
    rw [metaOf, h1, h2]; rfl
  · intro ha
    refine ⟨?_, ?_, ?_, ?_, ?_⟩ <;> rw [ha] <;> rfl

/-- Witness for C7: a null detail against a minimal list item builds a row. -/
theorem buildRow_total_priority_witness :
    ∃ r, buildRowE "a" "e" listIdOnly Json.null "T" = .ok r ∧
      r.conversation_id = jGet listIdOnly "conversation_id" := by
  obtain ⟨r, hr, hc, -⟩ := buildRow_total_priority "a" "e" "T" listIdOnly Json.null
    (by intro h; exact Json.noConfusion h) rfl
  exact ⟨r, hr, hc⟩

/-! ## C4: field-extraction defaults -/

/-- Fixture: a detail payload whose charging block is entirely absent but
whose metadata carries a cost. -/
def detailCostNoCharging : Json :=
  Json.obj [("metadata", Json.obj [("cost", Json.num 5)])]

/-- C4 counterexample: a detail payload with no charging block anywhere but
with `metadata.cost = 5` yields a row with cost = 5, not null — the current
buildRow reads the cost column from `detail.metadata.cost`, not from the
charging block (only llm_cost and llm_price come from charging). -/
theorem cost_not_null_without_charging :
    jGet (metaOf listIdOnly detailCostNoCharging) "charging" = Json.null ∧
    (buildRowE "a" "e" listIdOnly detailCostNoCharging "T").map Row.cost =
      .ok (Json.num 5) :=
  ⟨rfl, rfl⟩

/-- C4 (amended): when the effective metadata has no charging block,
llm_cost and llm_price are null, and cost is null provided `metadata.cost`
is also absent (cost reads `metadata.cost`, not the charging block);
independently, a missing transcript yields the empty array (never null) and
object-or-absent metadata sources yield an object (the empty object when
none exists, never null). -/
theorem charging_absent_field_defaults (a e now : String) (l d : Json) (r : Row)
    (hok : buildRowE a e l d now = .ok r)
    (hch : jGet (metaOf l d) "charging" = Json.null) :
    r.llm_cost = Json.null ∧ r.llm_price = Json.null ∧
    (jGet (metaOf l d) "cost" = Json.null → r.cost = Json.null) ∧
    (jGet d "transcript" = Json.null → r.transcript = Json.arr []) ∧
    (jGet d "metadata" = Json.null → jGet l "metadata" = Json.null →
      r.metadata = Json.obj []) := by
  have hln : l ≠ Json.null := by
    rintro rfl
    rw [buildRowE_null_listItem] at hok
    exact Except.noConfusion hok
  rw [buildRowE_eq a e l d now hln] at hok
  cases hu : extractUserNameE d (trOf d) with
  | error err => rw [hu] at hok; exact absurd hok (by simp [Except.map])
  | ok u =>
    rw [hu] at hok
    simp only [Except.map, Except.ok.injEq] at hok
    subst hok
    refine ⟨?_, ?_, ?_, ?_, ?_⟩
    · rw [hch]; rfl
    · rw [hch]; rfl
    · intro hc; rw [hc]; rfl
    · intro ht
      have htr : trOf d = Json.arr [] := by rw [trOf, ht]; rfl
      rw [htr]; rfl
    · intro h1 h2
      rw [metaOf, h1, h2]; rfl

/-- The degraded row built from `listIdOnly` with a null detail. -/
def nullDetailRow : Row :=
  (buildRowE "a" "e" listIdOnly Json.null "T").toOption.getD rowZero

/-- Witness for the amended C4 at a null detail (charging and cost absent). -/
theorem charging_absent_field_defaults_witness :
    buildRowE "a" "e" listIdOnly Json.null "T" = .ok nullDetailRow ∧
    nullDetailRow.llm_cost = Json.null ∧ nullDetailRow.llm_price = Json.null ∧
    nullDetailRow.cost = Json.null ∧ nullDetailRow.transcript = Json.arr [] ∧
    nullDetailRow.metadata = Json.obj [] := by
  have h := charging_absent_field_defaults "a" "e" "T" listIdOnly Json.null
    nullDetailRow rfl rfl
  exact ⟨rfl, h.1, h.2.1, h.2.2.1 rfl, h.2.2.2.1 rfl, h.2.2.2.2 rfl rfl⟩

/-! ## C10: truthiness fallbacks on status, start time and duration -/

/-- C10: the row fields status, start_time_unix and duration_secs are
selected with truthiness fallbacks: a zero value in the preferred
(detail-level) source is skipped in favour of the list-level fallback, and
when every source is falsy the field is stored as null rather than 0 (for
status, a falsy detail status falls back to the list status, and null when
both are falsy). -/
theorem zero_values_fall_through (a e now : String) (l d : Json) (r : Row)
    (hok : buildRowE a e l d now = .ok r) :
    (jTruthy (jGet d "metadata") = true →
      jGet (jGet d "metadata") "call_duration_secs" = Json.num 0 →
      r.duration_secs = jOr (jGet (jGet l "metadata") "call_duration_secs") Json.null) ∧
    (jTruthy (jGet d "metadata") = true →
      jGet (jGet d "metadata") "start_time_unix_secs" = Json.num 0 →
      r.start_time_unix = jOr (jGet (jGet l "metadata") "start_time_unix_secs") Json.null) ∧
    (jTruthy (jGet d "status") = false → jTruthy (jGet l "status") = false →
      r.status = Json.null) ∧
    (jTruthy (jGet d "metadata") = true →
      jGet (jGet d "metadata") "call_duration_secs" = Json.num 0 →
      jTruthy (jGet (jGet l "metadata") "call_duration_secs") = false →
      r.duration_secs = Json.null) := by
  have hln : l ≠ Json.null := by
    rintro rfl
    rw [buildRowE_null_listItem] at hok
    exact Except.noConfusion hok
  rw [buildRowE_eq a e l d now hln] at hok
  cases hu : extractUserNameE d (trOf d) with
  | error err => rw [hu] at hok; exact absurd hok (by simp [Except.map])
  | ok u =>
    rw [hu] at hok
    simp only [Except.map, Except.ok.injEq] at hok
    subst hok
    refine ⟨?_, ?_, ?_, ?_⟩
    · intro hm hz
      have hmeta : metaOf l d = jGet d "metadata" := by
        rw [metaOf]; exact jOr_of_truthy _ hm
      rw [hmeta, hz, jOr_zero]
    · intro hm hz
      have hmeta : metaOf l d = jGet d "metadata" := by
        rw [metaOf]; exact jOr_of_truthy _ hm
      rw [hmeta, hz, jOr_zero]
    · intro h1 h2
      rw [jOr_of_falsy _ h1, jOr_of_falsy _ h2]
    · intro hm hz hl2
      have hmeta : metaOf l d = jGet d "metadata" := by
        rw [metaOf]; exact jOr_of_truthy _ hm
      rw [hmeta, hz, jOr_zero, jOr_of_falsy _ hl2]

/-- Fixture: a list item with a truthy duration. -/
def lDur : Json := Json.obj [("conversation_id", Json.str "c10"),
  ("metadata", Json.obj [("call_duration_secs", Json.num 7)])]

/-- Fixture: a detail whose metadata holds zero duration and zero start. -/
def dZeroMeta : Json := Json.obj [("metadata",
  Json.obj [("call_duration_secs", Json.num 0), ("start_time_unix_secs", Json.num 0)])]

/-- The row built from the zero-valued detail. -/
def zeroFallRow : Row :=
  (buildRowE "a" "e" lDur dZeroMeta "T").toOption.getD rowZero

/-- Witness for C10: duration 0 in the detail falls back to the list-level 7;
start 0 with no fallback becomes null; falsy statuses become null. -/
theorem zero_values_fall_through_witness :
    buildRowE "a" "e" lDur dZeroMeta "T" = .ok zeroFallRow ∧
    zeroFallRow.duration_secs = Json.num 7 ∧
    zeroFallRow.start_time_unix = Json.null ∧
    zeroFallRow.status = Json.null := by
  have h := zero_values_fall_through "a" "e" "T" lDur dZeroMeta zeroFallRow rfl
  exact ⟨rfl, (h.1 rfl rfl).trans rfl, (h.2.1 rfl rfl).trans rfl, h.2.2.1 rfl rfl⟩

/-! ## C3: partial-failure tolerance in the detail-fetch loop -/

theorem fetchDetailsGo_eq_map (details : Json → Option Json) :
    ∀ (fuel : Nat) (l : List Json),
      fetchDetailsGo details fuel l =
        l.map (fun c => (c, detailOutcome details c)) := by
  intro fuel
  induction fuel with
  | zero => intro l; cases l <;> rfl
  | succ n ih =>
    intro l
    cases l with
    | nil => rfl
    | cons c rest =>
      rw [fetchDetailsGo]
      rw [ih, ← List.map_append, List.take_append_drop]

theorem buildRowsE_length (a e now : String) :
    ∀ (ps : List (Json × Json)) (rs : List Row),
      buildRowsE a e now ps = .ok rs → rs.length = ps.length := by
  intro ps
  induction ps with
  | nil =>
    intro rs h
    rw [buildRowsE] at h
    have h2 := Except.ok.inj h
    subst h2
    rfl
  | cons p ps ih =>
    intro rs h
    rw [buildRowsE] at h
    cases hb : buildRowE a e p.1 p.2 now with
    | error err => rw [hb] at h; exact absurd h (by simp)
    | ok r =>
      rw [hb] at h
      cases hb2 : buildRowsE a e now ps with
      | error err => rw [hb2] at h; exact absurd h (by simp)
      | ok rs2 =>
        rw [hb2] at h
        have h2 := Except.ok.inj h
        subst h2
        rw [List.length_cons, List.length_cons, ih rs2 hb2]

/-- For a null detail, the degraded row's metadata-derived fields collapse to
the list-level value with a null default. -/
theorem degraded_field (l : Json) (key : String) :
    jOr (jGet (metaOf l Json.null) key)
        (jOr (jGet (jGet l "metadata") key) Json.null) =
      jOr (jGet (jGet l "metadata") key) Json.null := by
  have hmeta : metaOf l Json.null = jOr (jGet l "metadata") (Json.obj []) := by
    rw [metaOf]; exact jOr_of_falsy _ rfl
  rw [hmeta]
  by_cases hm : jTruthy (jGet l "metadata") = true
  · rw [jOr_of_truthy _ hm]
    by_cases hx : jTruthy (jGet (jGet l "metadata") key) = true
    · rw [jOr_of_truthy _ hx, jOr_of_truthy _ hx]
    · have hxf : jTruthy (jGet (jGet l "metadata") key) = false := by simpa using hx
      rw [jOr_of_falsy _ hxf]
  · have hmf : jTruthy (jGet l "metadata") = false := by simpa using hm
    rw [jOr_of_falsy _ hmf]
    exact jOr_of_falsy _ rfl

/-- C3: one item's detail-fetch failure never drops the item or affects its
batch siblings — the batched loop is pointwise: it pairs each listed item,
in order, with its own settled outcome only; a rejected or fulfilled-falsy
fetch yields detail = null; such an item still produces a degraded row built
from list-level status / start_time_unix / duration with an empty
transcript; and a successful run's newCount equals the full number of
listed items. -/
theorem detail_failure_isolation :
    (∀ (details : Json → Option Json) (convs : List Json),
      fetchDetailsBatched details convs =
        convs.map (fun c => (c, detailOutcome details c))) ∧
    (∀ (details : Json → Option Json) (c : Json),
      details c = none → detailOutcome details c = Json.null) ∧
    (∀ (details : Json → Option Json) (c v : Json),
      details c = some v → jTruthy v = false →
      detailOutcome details c = Json.null) ∧
    (∀ (a e : String) (l : Json) (now : String) (r : Row),
      buildRowE a e l Json.null now = .ok r →
      r.status = jOr (jGet l "status") Json.null ∧
      r.start_time_unix =
        jOr (jGet (jGet l "metadata") "start_time_unix_secs") Json.null ∧
      r.duration_secs =
        jOr (jGet (jGet l "metadata") "call_duration_secs") Json.null ∧
      r.transcript = Json.arr []) ∧
    (∀ (a e : String) (env : SyncEnv) (table : List Row) (out : SyncOutcome),
      syncConversations a e env table = .ok out →
      out.newCount =
        ((fetchAllConversations env.pages (stopBeforeOf table a) 20).conversations).length) := by
  refine ⟨?_, ?_, ?_, ?_, ?_⟩
  · intro details convs
    exact fetchDetailsGo_eq_map details convs.length convs
  · intro details c h; simp [detailOutcome, h]
  · intro details c v h hv; simp [detailOutcome, h, hv]
  · intro a e l now r hok
    have hln : l ≠ Json.null := by
      rintro rfl
      rw [buildRowE_null_listItem] at hok
      exact Except.noConfusion hok
    rw [buildRowE_eq a e l Json.null now hln] at hok
    cases hu : extractUserNameE Json.null (trOf Json.null) with
    | error err => rw [hu] at hok; exact absurd hok (by simp [Except.map])
    | ok u =>
      rw [hu] at hok
      simp only [Except.map, Except.ok.injEq] at hok
      subst hok
      refine ⟨?_, ?_, ?_, ?_⟩
      · show jOr (jGet Json.null "status") (jOr (jGet l "status") Json.null) = _
        exact jOr_of_falsy _ rfl
      · exact degraded_field l "start_time_unix_secs"
      · exact degraded_field l "call_duration_secs"
      · rfl
  · intro a e env table out h
    simp only [syncConversations] at h
    by_cases hemp : (fetchAllConversations env.pages (stopBeforeOf table a) 20).conversations = []
    · rw [hemp] at h
      simp only [List.isEmpty_nil, if_true, Except.ok.injEq] at h
      subst h
      rw [hemp]
      rfl
    · have hne : ((fetchAllConversations env.pages (stopBeforeOf table a) 20).conversations).isEmpty = false := by
        simpa [List.isEmpty_iff] using hemp
      rw [hne] at h
      simp only [Bool.false_eq_true, if_false] at h
      cases hrows : buildRowsE a e env.now (fetchDetailsBatched env.details
          (fetchAllConversations env.pages (stopBeforeOf table a) 20).conversations) with
      | error err => rw [hrows] at h; exact absurd h (by simp)
      | ok rows =>
        rw [hrows] at h
        simp only [Except.ok.injEq] at h
        subst h
        show rows.length = _
        rw [buildRowsE_length a e env.now _ rows hrows]
        rw [fetchDetailsBatched, fetchDetailsGo_eq_map, List.length_map]

/-- The degraded row built for convA when its detail fetch fails. -/
def convARow : Row :=
  (buildRowE "agent1" "el1" convA Json.null "NOW").toOption.getD rowZero

/-- Witness for C3: in the two-item fixture the failed item convA is kept
with a null detail, the successful sibling keeps its payload, newCount is 2,
and convA's degraded row carries the list-level defaults. -/
theorem detail_failure_isolation_witness :
    fetchDetailsBatched twoItemEnv.details [convB, convA] =
      [(convB, Json.obj [("status", Json.str "done")]), (convA, Json.null)] ∧
    detailOutcome twoItemEnv.details convA = Json.null ∧
    twoItemOutcome.newCount = 2 ∧
    convARow.transcript = Json.arr [] ∧
    convARow.duration_secs = Json.null := by
  refine ⟨?_, ?_, ?_, ?_, ?_⟩
  · exact (detail_failure_isolation.1 twoItemEnv.details [convB, convA]).trans rfl
  · exact detail_failure_isolation.2.1 twoItemEnv.details convA rfl
  · exact (detail_failure_isolation.2.2.2.2 "agent1" "el1" twoItemEnv []
      twoItemOutcome rfl).trans rfl
  · exact (detail_failure_isolation.2.2.2.1 "agent1" "el1" convA "NOW"
      convARow rfl).2.2.2
  · exact ((detail_failure_isolation.2.2.2.1 "agent1" "el1" convA "NOW"
      convARow rfl).2.2.1).trans rfl

/-! ## C8: the greeting heuristic of extractUserName -/

theorem takeWhile_all (p : Char → Bool) :
    ∀ (l : List Char), ((l.takeWhile p).all p) = true := by
  intro l
  induction l with
  | nil => rfl
  | cons c rest ih =>
    by_cases h : p c
    · simp [List.takeWhile_cons, h, ih]
    · simp [List.takeWhile_cons, h]

theorem nameRun_name (afterWs : List Char) (n : String)
    (h : nameRun afterWs = some n) :
    2 ≤ n.length ∧ n.length ≤ 31 ∧ n.data.all Char.isAlpha = true := by
  rw [nameRun] at h
  split at h
  · next hcond =>
    have h2 := Option.some.inj h
    subst h2
    exact ⟨hcond.1, hcond.2.1, takeWhile_all Char.isAlpha afterWs⟩
  · exact absurd h (by simp)

theorem nameTail_name (cs : List Char) (n : String) (h : nameTail cs = some n) :
    2 ≤ n.length ∧ n.length ≤ 31 ∧ n.data.all Char.isAlpha = true := by
  cases cs with
  | nil => exact absurd h (by rw [nameTail] at h; simp at h)
  | cons c rest =>
    rw [nameTail] at h
    by_cases hsp : isJsSpace c = true
    · rw [if_pos hsp] at h
      exact nameRun_name _ n h
    · rw [if_neg hsp] at h
      exact absurd h (by simp)

theorem tryGreeting_name (g : String) (cs : List Char) (n : String)
    (h : tryGreeting g cs = some n) :
    2 ≤ n.length ∧ n.length ≤ 31 ∧ n.data.all Char.isAlpha = true := by
  rw [tryGreeting] at h
  cases hs : stripCI g.data cs with
  | none => rw [hs] at h; exact absurd h (by simp)
  | some rest =>
    rw [hs] at h
    exact nameTail_name rest n h

theorem greetingHere_name (cs : List Char) (n : String)
    (h : greetingHere cs = some n) :
    2 ≤ n.length ∧ n.length ≤ 31 ∧ n.data.all Char.isAlpha = true := by
  rw [greetingHere] at h
  cases h1 : tryGreeting "hey" cs with
  | some m =>
    rw [h1] at h
    have h2 := Option.some.inj h
    subst h2
    exact tryGreeting_name "hey" cs _ h1
  | none =>
    rw [h1] at h
    cases h2 : tryGreeting "hello" cs with
    | some m =>
      rw [h2] at h
      have h3 := Option.some.inj h
      subst h3
      exact tryGreeting_name "hello" cs _ h2
    | none =>
      rw [h2] at h
      exact tryGreeting_name "hi" cs n h

theorem scanChars_name : ∀ (cs : List Char) (prev : Option Char) (n : String),
    scanChars prev cs = some n →
    2 ≤ n.length ∧ n.length ≤ 31 ∧ n.data.all Char.isAlpha = true := by
  intro cs
  induction cs with
  | nil => intro prev n h; exact absurd h (by rw [scanChars] at h; simp at h)
  | cons c rest ih =>
    intro prev n h
    rw [scanChars.eq_def] at h
    dsimp only at h
    split at h
    · next m heq =>
      have h2 := Option.some.inj h
      subst h2
      by_cases hbd : boundaryOk prev = true
      · rw [if_pos hbd] at heq
        exact greetingHere_name _ _ heq
      · rw [if_neg hbd] at heq
        exact absurd heq (by simp)
    · exact ih (some c) n h

/-- C8 counterexample: a lowercase name after the greeting still matches —
the regex's `i` flag applies to the capture classes too, so
`extractUserName` returns "bob" for the agent message "hello bob" instead
of the null the claim requires for a non-capitalized word. -/
theorem greeting_matches_uncapitalised :
    extractUserNameE Json.null
        (Json.arr [Json.obj [("role", Json.str "agent"),
          ("message", Json.str "hello bob")]]) = .ok (Json.str "bob") ∧
    extractUserNameE Json.null
        (Json.arr [Json.obj [("role", Json.str "agent"),
          ("message", Json.str "hello bob")]]) ≠ .ok Json.null := by
  refine ⟨rfl, fun h => ?_⟩
  rw [show extractUserNameE Json.null
      (Json.arr [Json.obj [("role", Json.str "agent"),
        ("message", Json.str "hello bob")]]) = .ok (Json.str "bob") from rfl] at h
  exact Json.noConfusion (Except.ok.inj h)

/-- C8 (amended): when the dynamic-variables branch yields nothing,
extractUserName scans only the first 20 transcript turns, only those whose
role is exactly "agent" and whose message is truthy, returning the first
greeting match — where the greeting pattern is case-insensitive as a whole
(`hey`/`hello`/`hi` at a word boundary, whitespace, then a word of 2–31
letters in either case, so the word need not be capitalized); when no turn
matches it returns null. -/
theorem greeting_scan_characterisation :
    (∀ (d : Json) (ts : List Json),
      dvScan (jGet (jGet d "conversation_initiation_client_data")
        "dynamic_variables") = none →
      (∀ t ∈ ts.take 20, turnSafe t = true) →
      extractUserNameE d (Json.arr ts) = .ok (jsonOfName (greetingNameSpec ts))) ∧
    (∀ (s n : String), matchGreeting s = some n →
      2 ≤ n.length ∧ n.length ≤ 31 ∧ n.data.all Char.isAlpha = true) := by
  constructor
  · intro d ts hdv hsafe
    rw [extractUserNameE, hdv]
    show turnsLoopE (ts.take 20) = _
    rw [turnsLoopE_spec _ hsafe]
    rfl
  · intro s n h
    rw [matchGreeting] at h
    exact scanChars_name s.data none n h

/-- Witness for the amended C8 at the "hello bob" fixture. -/
theorem greeting_scan_characterisation_witness :
    extractUserNameE Json.null
        (Json.arr [Json.obj [("role", Json.str "agent"),
          ("message", Json.str "hi Zoe")]]) =
      .ok (jsonOfName (greetingNameSpec
        [Json.obj [("role", Json.str "agent"), ("message", Json.str "hi Zoe")]])) ∧
    matchGreeting "hi Zoe" = some "Zoe" ∧ 2 ≤ "Zoe".length := by
  refine ⟨?_, rfl, ?_⟩
  · exact greeting_scan_characterisation.1 Json.null
      [Json.obj [("role", Json.str "agent"), ("message", Json.str "hi Zoe")]]
      rfl (fun t ht => by
        rcases List.mem_singleton.mp ht with rfl
        rfl)
  · exact (greeting_scan_characterisation.2 "hi Zoe" "Zoe" rfl).1

end AgentDash
